import Mathlib

/-!
Shallow embedding of `src/src/lib.rs` of the `plic` crate: the RISC-V
Platform-Level Interrupt Controller register map and its access methods.

Machine integers (`u32`) are modelled as `Nat`; a `u32` value is a `Nat`
below `2 ^ 32`.  A Rust panic (the `expect` on a zero source id, or an
out-of-bounds array index) is modelled by returning `none`; a successful
register transaction returns `some`.  Volatile device memory is modelled as
plain state: a slot holds the last value written to it.
-/

/-- `COUNT_SOURCE` from the source: number of interrupt sources. -/
def COUNT_SOURCE : Nat := 1024

/-- `COUNT_CONTEXT` from the source: number of hart contexts. -/
def COUNT_CONTEXT : Nat := 15872

/-- `U32_BITS` from the source: bit width of `u32`. -/
def U32_BITS : Nat := 32

/-- `!0u32`, the all-ones 32-bit word written by the probe methods. -/
def U32_MAX : Nat := 2 ^ 32 - 1

/-- `ContextLocal` from the source: one per-context register block holding the
priority threshold and the claim/completion register (the reserved padding
bytes carry no state). -/
structure ContextLocal where
  priority_threshold : Nat
  claim_or_completion : Nat
deriving DecidableEq

/-- `Plic` from the source: the register map state.  `priorities` models the
`Priorities` array of `COUNT_SOURCE` u32 slots, `pending_bits` the
`PendingBits` array of `COUNT_SOURCE / U32_BITS` packed words, `enables` the
`Enables` array of `COUNT_SOURCE * COUNT_CONTEXT / U32_BITS` packed words, and
`context_local` the array of `COUNT_CONTEXT` per-context blocks. -/
structure Plic where
  priorities : Fin COUNT_SOURCE → Nat
  pending_bits : Fin (COUNT_SOURCE / U32_BITS) → Nat
  enables : Fin (COUNT_SOURCE * COUNT_CONTEXT / U32_BITS) → Nat
  context_local : Fin COUNT_CONTEXT → ContextLocal

/-- The all-zero register map, used as a concrete state for witnesses. -/
def Plic.init : Plic :=
  { priorities := fun _ => 0
    pending_bits := fun _ => 0
    enables := fun _ => 0
    context_local := fun _ => ⟨0, 0⟩ }

/-- `Plic::set_priority`.  `source.id()` panics on a zero id
(`NonZeroU32::new(..).expect`), then `self.priorities.0[source]` panics when
the index is out of bounds; otherwise the slot is written. -/
def Plic.set_priority (p : Plic) (source value : Nat) : Option Plic :=
  if source = 0 then none
  else if h : source < COUNT_SOURCE then
    some { p with priorities := Function.update p.priorities ⟨source, h⟩ value }
  else none

/-- `Plic::get_priority`: reads the priority slot of `source`. -/
def Plic.get_priority (p : Plic) (source : Nat) : Option Nat :=
  if source = 0 then none
  else if h : source < COUNT_SOURCE then
    some (p.priorities ⟨source, h⟩)
  else none

/-- `Plic::probe_priority_bits`: writes `!0` to the priority slot of `source`,
then reads the slot back, returning the new state and the value read. -/
def Plic.probe_priority_bits (p : Plic) (source : Nat) : Option (Plic × Nat) :=
  if source = 0 then none
  else if h : source < COUNT_SOURCE then
    let p2 : Plic := { p with priorities := Function.update p.priorities ⟨source, h⟩ U32_MAX }
    some (p2, p2.priorities ⟨source, h⟩)
  else none

/-- `Plic::is_pending`: reads word `source / U32_BITS` of the pending bitmap
and tests bit `source % U32_BITS`. -/
def Plic.is_pending (p : Plic) (source : Nat) : Option Bool :=
  if source = 0 then none
  else
    let group := source / U32_BITS
    let index := source % U32_BITS
    if h : group < COUNT_SOURCE / U32_BITS then
      some ((p.pending_bits ⟨group, h⟩ &&& (1 <<< index)) != 0)
    else none

/-- `Plic::enable`: read-modify-write OR of the single-bit mask at position
`pos = context * COUNT_SOURCE + source` of the enable bitmap, in word
`pos / U32_BITS` at bit `pos % U32_BITS`. -/
def Plic.enable (p : Plic) (source context : Nat) : Option Plic :=
  if source = 0 then none
  else
    let pos := context * COUNT_SOURCE + source
    let group := pos / U32_BITS
    let index := pos % U32_BITS
    if h : group < COUNT_SOURCE * COUNT_CONTEXT / U32_BITS then
      some { p with enables := (Function.update p.enables ⟨group, h⟩
        (p.enables ⟨group, h⟩ ||| (1 <<< index))) }
    else none

/-- `Plic::disable`: read-modify-write AND of the complemented single-bit mask
(`!(1 << index)` in `u32` is `U32_MAX ^^^ (1 <<< index)`). -/
def Plic.disable (p : Plic) (source context : Nat) : Option Plic :=
  if source = 0 then none
  else
    let pos := context * COUNT_SOURCE + source
    let group := pos / U32_BITS
    let index := pos % U32_BITS
    if h : group < COUNT_SOURCE * COUNT_CONTEXT / U32_BITS then
      some { p with enables := (Function.update p.enables ⟨group, h⟩
        (p.enables ⟨group, h⟩ &&& (U32_MAX ^^^ (1 <<< index)))) }
    else none

/-- `Plic::is_enabled`: reads the enable-bitmap word at `pos / U32_BITS` and
tests bit `pos % U32_BITS`. -/
def Plic.is_enabled (p : Plic) (source context : Nat) : Option Bool :=
  if source = 0 then none
  else
    let pos := context * COUNT_SOURCE + source
    let group := pos / U32_BITS
    let index := pos % U32_BITS
    if h : group < COUNT_SOURCE * COUNT_CONTEXT / U32_BITS then
      some ((p.enables ⟨group, h⟩ &&& (1 <<< index)) != 0)
    else none

/-- `Plic::get_threshold`: reads the `priority_threshold` register of
`context` (`self.context_local[context]` panics out of bounds). -/
def Plic.get_threshold (p : Plic) (context : Nat) : Option Nat :=
  if h : context < COUNT_CONTEXT then
    some (p.context_local ⟨context, h⟩).priority_threshold
  else none

/-- `Plic::set_threshold`: writes the `priority_threshold` register of
`context`. -/
def Plic.set_threshold (p : Plic) (context value : Nat) : Option Plic :=
  if h : context < COUNT_CONTEXT then
    some { p with context_local := (Function.update p.context_local ⟨context, h⟩
      { p.context_local ⟨context, h⟩ with priority_threshold := value }) }
  else none

/-- `Plic::probe_threshold_bits`: writes `!0` to the threshold register of
`context`, then reads it back. -/
def Plic.probe_threshold_bits (p : Plic) (context : Nat) : Option (Plic × Nat) :=
  if h : context < COUNT_CONTEXT then
    let p2 : Plic := { p with context_local := (Function.update p.context_local ⟨context, h⟩
      { p.context_local ⟨context, h⟩ with priority_threshold := U32_MAX }) }
    some (p2, (p2.context_local ⟨context, h⟩).priority_threshold)
  else none

/-- `Plic::claim`: one read of the `claim_or_completion` register of
`context`, wrapped by `NonZeroU32::new` (`none` exactly when the raw value is
zero). -/
def Plic.claim (p : Plic) (context : Nat) : Option (Option Nat) :=
  if h : context < COUNT_CONTEXT then
    let raw := (p.context_local ⟨context, h⟩).claim_or_completion
    some (if raw = 0 then none else some raw)
  else none

/-- `Plic::complete`: writes `source.id().get()` to the `claim_or_completion`
register of `context`.  The context index is resolved first
(`self.context_local[context]`), then `source.id()` panics on a zero id; no
other check is made on the source value. -/
def Plic.complete (p : Plic) (context source : Nat) : Option Plic :=
  if h : context < COUNT_CONTEXT then
    if source = 0 then none
    else
      some { p with context_local := (Function.update p.context_local ⟨context, h⟩
        { p.context_local ⟨context, h⟩ with claim_or_completion := source }) }
  else none

/-- Modelled from the spec: `disable_source(source_id)` is absent from `src/`;
the spec defines it as `set_priority(source_id, 0)`. -/
def Plic.disable_source (p : Plic) (source : Nat) : Option Plic :=
  p.set_priority source 0

/-- Derived observation: bit `pos % U32_BITS` of word `pos / U32_BITS` of the
packed enable bitmap (`false` beyond the bitmap). -/
def Plic.enableBit (p : Plic) (pos : Nat) : Bool :=
  if h : pos / U32_BITS < COUNT_SOURCE * COUNT_CONTEXT / U32_BITS then
    (p.enables ⟨pos / U32_BITS, h⟩).testBit (pos % U32_BITS)
  else false

/-! ### Memory layout of `Plic` (`repr(C, align(4096))`)

The `repr(C)` layout algorithm: each field is placed at the previous end
rounded up to the field's alignment; the struct size is the end of the last
field rounded up to the struct alignment. -/

/-- Round `n` up to the next multiple of `a`. -/
def alignUp (n a : Nat) : Nat := (n + a - 1) / a * a

/-- `size_of::<u32>()`. -/
def size_u32 : Nat := 4

/-- Byte size of `Priorities`: `[UnsafeCell<u32>; COUNT_SOURCE]`. -/
def Priorities.byteSize : Nat := COUNT_SOURCE * size_u32

/-- Byte size of `PendingBits`: `[UnsafeCell<u32>; COUNT_SOURCE / U32_BITS]`. -/
def PendingBits.byteSize : Nat := COUNT_SOURCE / U32_BITS * size_u32

/-- Byte size of `Enables`:
`[UnsafeCell<u32>; COUNT_SOURCE * COUNT_CONTEXT / U32_BITS]`. -/
def Enables.byteSize : Nat := COUNT_SOURCE * COUNT_CONTEXT / U32_BITS * size_u32

/-- Alignment of `ContextLocal` (`repr(C, align(4096))`). -/
def ContextLocal.align : Nat := 4096

/-- Offset of `ContextLocal.priority_threshold`. -/
def ContextLocal.priority_threshold_offset : Nat := 0

/-- Offset of `ContextLocal.claim_or_completion`: it follows the `u32`
threshold field. -/
def ContextLocal.claim_or_completion_offset : Nat :=
  alignUp (ContextLocal.priority_threshold_offset + size_u32) size_u32

/-- Byte size of the `_reserved` field of `ContextLocal`:
`[u8; 4096 - 2 * size_of::<u32>()]`. -/
def ContextLocal.reserved_byteSize : Nat := 4096 - 2 * size_u32

/-- Byte size of `ContextLocal`: the end of its fields rounded up to its
alignment. -/
def ContextLocal.byteSize : Nat :=
  alignUp
    (ContextLocal.claim_or_completion_offset + size_u32 + ContextLocal.reserved_byteSize)
    ContextLocal.align

/-- Alignment of `Plic` (`repr(C, align(4096))`). -/
def Plic.structAlign : Nat := 4096

/-- Offset of `Plic.priorities`. -/
def Plic.priorities_offset : Nat := 0

/-- Offset of `Plic.pending_bits`: follows the priority array (alignment 4). -/
def Plic.pending_bits_offset : Nat :=
  alignUp (Plic.priorities_offset + Priorities.byteSize) size_u32

/-- Byte size of `Plic._reserved0`: `[u8; 4096 - size_of::<PendingBits>()]`. -/
def Plic.reserved0_byteSize : Nat := 4096 - PendingBits.byteSize

/-- Offset of `Plic._reserved0` (alignment 1). -/
def Plic.reserved0_offset : Nat :=
  alignUp (Plic.pending_bits_offset + PendingBits.byteSize) 1

/-- Offset of `Plic.enables` (alignment 4). -/
def Plic.enables_offset : Nat :=
  alignUp (Plic.reserved0_offset + Plic.reserved0_byteSize) size_u32

/-- Byte size of `Plic._reserved1`: `[u8; 0xe000]`. -/
def Plic.reserved1_byteSize : Nat := 0xe000

/-- Offset of `Plic._reserved1` (alignment 1). -/
def Plic.reserved1_offset : Nat := alignUp (Plic.enables_offset + Enables.byteSize) 1

/-- Offset of `Plic.context_local`: rounded up to `ContextLocal`'s 4096-byte
alignment. -/
def Plic.context_local_offset : Nat :=
  alignUp (Plic.reserved1_offset + Plic.reserved1_byteSize) ContextLocal.align

/-- Byte size of `Plic`: the end of its last field rounded up to the struct
alignment. -/
def Plic.byteSize : Nat :=
  alignUp (Plic.context_local_offset + COUNT_CONTEXT * ContextLocal.byteSize)
    Plic.structAlign

/-- C3: the register map is `0x200000 + 15872 * 4096` bytes, 4096-byte
aligned, with the priority array at 0 (1024 u32 slots, so source id 0 has a
slot although every access method rejects id 0), the pending bitmap
immediately after at 0x1000, the enable bitmap at the next 4096 boundary
0x2000 holding `1024 * 15872 / 32` words, `0xe000` reserved bytes after it,
and the per-context 4096-byte blocks at 0x200000, each with the u32 threshold
at offset 0 and the u32 claim/completion register at offset 4. -/
theorem layout_matches_spec_table :
    Plic.byteSize = 0x200000 + 15872 * 4096 ∧
    Plic.structAlign = 4096 ∧
    Plic.byteSize % 4096 = 0 ∧
    Plic.priorities_offset = 0 ∧
    Priorities.byteSize = 1024 * 4 ∧
    Plic.pending_bits_offset = Plic.priorities_offset + Priorities.byteSize ∧
    Plic.pending_bits_offset = 0x1000 ∧
    PendingBits.byteSize = 1024 / 32 * 4 ∧
    Plic.enables_offset = alignUp (Plic.pending_bits_offset + PendingBits.byteSize) 4096 ∧
    Plic.enables_offset = 0x2000 ∧
    Enables.byteSize = 1024 * 15872 / 32 * 4 ∧
    Plic.context_local_offset = Plic.enables_offset + Enables.byteSize + 0xe000 ∧
    Plic.context_local_offset = 0x200000 ∧
    ContextLocal.byteSize = 4096 ∧
    ContextLocal.align = 4096 ∧
    ContextLocal.priority_threshold_offset = 0 ∧
    ContextLocal.claim_or_completion_offset = 4 := by
  decide

/-! ### Helper lemmas -/

lemma and_shift_bne (w i : Nat) : ((w &&& (1 <<< i)) != 0) = w.testBit i := by
  rw [Nat.one_shiftLeft, Nat.and_two_pow]
  cases h : w.testBit i <;> simp [h, (Nat.two_pow_pos i).ne']

lemma enable_group_lt {s c : Nat} (hs : s < COUNT_SOURCE) (hc : c < COUNT_CONTEXT) :
    (c * COUNT_SOURCE + s) / U32_BITS < COUNT_SOURCE * COUNT_CONTEXT / U32_BITS := by
  simp only [COUNT_SOURCE, COUNT_CONTEXT, U32_BITS] at *
  omega

lemma set_then_get (p : Plic) {s : Nat} (v : Nat) (hs0 : s ≠ 0) (hs : s < COUNT_SOURCE) :
    (Plic.set_priority p s v).bind (fun q => Plic.get_priority q s) = some v := by
  simp [Plic.set_priority, Plic.get_priority, hs0, hs]

/-- C4: for every source id in `[1, 1024)` and every u32 value `v`,
`set_priority(id, v)` succeeds and a subsequent `get_priority(id)` returns
`v`. -/
theorem set_priority_get_priority_round_trip (p : Plic) (s v : Nat)
    (h1 : 1 ≤ s) (h2 : s < 1024) (_hv : v < 2 ^ 32) :
    (Plic.set_priority p s v).bind (fun q => Plic.get_priority q s) = some v :=
  set_then_get p v (by omega) (by simpa [COUNT_SOURCE] using h2)

/-- Witness for C4 at `id = 5`, `v = 42` on the all-zero map. -/
theorem set_priority_get_priority_round_trip_witness :
    (Plic.set_priority Plic.init 5 42).bind (fun q => Plic.get_priority q 5) = some 42 :=
  set_priority_get_priority_round_trip Plic.init 5 42 (by norm_num) (by norm_num)
    (by norm_num)

/-- C8: `disable_source(source_id)` is `set_priority(source_id, 0)`, and after
it `get_priority(source_id)` returns `0`, for every source id in `[1, 1024)`.
The operation itself is absent from `src/` and is modelled from the spec. -/
theorem disable_source_zeroes_priority (p : Plic) (s : Nat)
    (h1 : 1 ≤ s) (h2 : s < 1024) :
    Plic.disable_source p s = Plic.set_priority p s 0 ∧
    (Plic.disable_source p s).bind (fun q => Plic.get_priority q s) = some 0 :=
  ⟨rfl, set_then_get p 0 (by omega) (by simpa [COUNT_SOURCE] using h2)⟩

/-- Witness for C8 at `id = 7` on the all-zero map. -/
theorem disable_source_zeroes_priority_witness :
    Plic.disable_source Plic.init 7 = Plic.set_priority Plic.init 7 0 ∧
    (Plic.disable_source Plic.init 7).bind (fun q => Plic.get_priority q 7) = some 0 :=
  disable_source_zeroes_priority Plic.init 7 (by norm_num) (by norm_num)

lemma enableBit_update (p : Plic) (g : Fin (COUNT_SOURCE * COUNT_CONTEXT / U32_BITS))
    (w q : Nat) :
    Plic.enableBit { p with enables := Function.update p.enables g w } q =
      if q / U32_BITS = g.val then w.testBit (q % U32_BITS) else p.enableBit q := by
  unfold Plic.enableBit
  by_cases hlt : q / U32_BITS < COUNT_SOURCE * COUNT_CONTEXT / U32_BITS
  · rw [dif_pos hlt]
    by_cases hq : q / U32_BITS = g.val
    · rw [if_pos hq]
      have he : (⟨q / U32_BITS, hlt⟩ : Fin (COUNT_SOURCE * COUNT_CONTEXT / U32_BITS)) = g :=
        Fin.ext hq
      dsimp only
      rw [he, Function.update_same]
    · rw [if_neg hq]
      have hne : (⟨q / U32_BITS, hlt⟩ : Fin (COUNT_SOURCE * COUNT_CONTEXT / U32_BITS)) ≠ g :=
        fun hh => hq (congrArg Fin.val hh)
      dsimp only
      rw [Function.update_noteq hne, dif_pos hlt]
  · rw [dif_neg hlt]
    have hq : q / U32_BITS ≠ g.val := fun hh => hlt (hh ▸ g.isLt)
    rw [if_neg hq, dif_neg hlt]

lemma testBit_disable_mask {i j : Nat} (hi : i < 32) (hj : j < 32) :
    (U32_MAX ^^^ (1 <<< i)).testBit j = decide (j ≠ i) := by
  simp only [U32_MAX, Nat.one_shiftLeft, Nat.testBit_xor, Nat.testBit_two_pow_sub_one,
    Nat.testBit_two_pow]
  by_cases h : j = i
  · simp [h, hi]
  · have h2 : i ≠ j := fun hh => h hh.symm
    simp [h, hj, h2]

lemma enableBit_update_or (p : Plic) (g : Fin (COUNT_SOURCE * COUNT_CONTEXT / U32_BITS))
    (pos q : Nat) (hpos : pos / U32_BITS = g.val) :
    Plic.enableBit { p with enables := (Function.update p.enables g
        (p.enables g ||| (1 <<< (pos % U32_BITS)))) } q =
      (if q = pos then true else p.enableBit q) := by
  rw [enableBit_update]
  by_cases hq : q = pos
  · subst hq
    rw [if_pos hpos, if_pos rfl, Nat.one_shiftLeft, Nat.testBit_or,
      Nat.testBit_two_pow_self, Bool.or_true]
  · rw [if_neg hq]
    by_cases hw : q / U32_BITS = g.val
    · rw [if_pos hw]
      have hmod : q % U32_BITS ≠ pos % U32_BITS := by
        intro hmm
        apply hq
        have hdiv : q / U32_BITS = pos / U32_BITS := hw.trans hpos.symm
        simp only [U32_BITS] at hdiv hmm
        omega
      rw [Nat.one_shiftLeft, Nat.testBit_or, Nat.testBit_two_pow_of_ne
        (fun hh => hmod hh.symm), Bool.or_false]
      unfold Plic.enableBit
      have hlt : q / U32_BITS < COUNT_SOURCE * COUNT_CONTEXT / U32_BITS := hw ▸ g.isLt
      rw [dif_pos hlt]
      have he : (⟨q / U32_BITS, hlt⟩ : Fin (COUNT_SOURCE * COUNT_CONTEXT / U32_BITS)) = g :=
        Fin.ext hw
      rw [he]
    · rw [if_neg hw]

lemma enableBit_update_andNot (p : Plic) (g : Fin (COUNT_SOURCE * COUNT_CONTEXT / U32_BITS))
    (pos q : Nat) (hpos : pos / U32_BITS = g.val) :
    Plic.enableBit { p with enables := (Function.update p.enables g
        (p.enables g &&& (U32_MAX ^^^ (1 <<< (pos % U32_BITS))))) } q =
      (if q = pos then false else p.enableBit q) := by
  rw [enableBit_update]
  have hposlt : pos % U32_BITS < 32 := by simp only [U32_BITS]; omega
  by_cases hq : q = pos
  · subst hq
    rw [if_pos hpos, if_pos rfl, Nat.testBit_and,
      testBit_disable_mask hposlt hposlt]
    simp
  · rw [if_neg hq]
    by_cases hw : q / U32_BITS = g.val
    · rw [if_pos hw]
      have hmod : q % U32_BITS ≠ pos % U32_BITS := by
        intro hmm
        apply hq
        have hdiv : q / U32_BITS = pos / U32_BITS := hw.trans hpos.symm
        simp only [U32_BITS] at hdiv hmm
        omega
      have hqlt : q % U32_BITS < 32 := by simp only [U32_BITS]; omega
      rw [Nat.testBit_and, testBit_disable_mask hposlt hqlt]
      rw [decide_eq_true hmod, Bool.and_true]
      unfold Plic.enableBit
      have hlt : q / U32_BITS < COUNT_SOURCE * COUNT_CONTEXT / U32_BITS := hw ▸ g.isLt
      rw [dif_pos hlt]
      have he : (⟨q / U32_BITS, hlt⟩ : Fin (COUNT_SOURCE * COUNT_CONTEXT / U32_BITS)) = g :=
        Fin.ext hw
      rw [he]
    · rw [if_neg hw]

lemma enable_frame (p : Plic) {s c : Nat} (hs0 : s ≠ 0) (hs : s < COUNT_SOURCE)
    (hc : c < COUNT_CONTEXT) :
    ∃ p', Plic.enable p s c = some p' ∧
      (∀ q, p'.enableBit q = (if q = c * COUNT_SOURCE + s then true else p.enableBit q)) ∧
      p'.priorities = p.priorities ∧ p'.pending_bits = p.pending_bits ∧
      p'.context_local = p.context_local := by
  have hg := enable_group_lt hs hc
  refine ⟨{ p with enables := (Function.update p.enables
      ⟨(c * COUNT_SOURCE + s) / U32_BITS, hg⟩
      (p.enables ⟨(c * COUNT_SOURCE + s) / U32_BITS, hg⟩ |||
        (1 <<< ((c * COUNT_SOURCE + s) % U32_BITS)))) }, ?_, ?_, rfl, rfl, rfl⟩
  · simp only [Plic.enable]
    rw [if_neg hs0, dif_pos hg]
  · intro q
    exact enableBit_update_or p ⟨(c * COUNT_SOURCE + s) / U32_BITS, hg⟩ _ q rfl

lemma disable_frame (p : Plic) {s c : Nat} (hs0 : s ≠ 0) (hs : s < COUNT_SOURCE)
    (hc : c < COUNT_CONTEXT) :
    ∃ p', Plic.disable p s c = some p' ∧
      (∀ q, p'.enableBit q = (if q = c * COUNT_SOURCE + s then false else p.enableBit q)) ∧
      p'.priorities = p.priorities ∧ p'.pending_bits = p.pending_bits ∧
      p'.context_local = p.context_local := by
  have hg := enable_group_lt hs hc
  refine ⟨{ p with enables := (Function.update p.enables
      ⟨(c * COUNT_SOURCE + s) / U32_BITS, hg⟩
      (p.enables ⟨(c * COUNT_SOURCE + s) / U32_BITS, hg⟩ &&&
        (U32_MAX ^^^ (1 <<< ((c * COUNT_SOURCE + s) % U32_BITS))))) }, ?_, ?_, rfl, rfl, rfl⟩
  · simp only [Plic.disable]
    rw [if_neg hs0, dif_pos hg]
  · intro q
    exact enableBit_update_andNot p ⟨(c * COUNT_SOURCE + s) / U32_BITS, hg⟩ _ q rfl

lemma is_enabled_eq_enableBit (p : Plic) {s c : Nat} (hs0 : s ≠ 0) (hs : s < COUNT_SOURCE)
    (hc : c < COUNT_CONTEXT) :
    Plic.is_enabled p s c = some (p.enableBit (c * COUNT_SOURCE + s)) := by
  have hg := enable_group_lt hs hc
  simp only [Plic.is_enabled, Plic.enableBit]
  rw [if_neg hs0, dif_pos hg, dif_pos hg, and_shift_bne]

lemma set_priority_some_eq {p p' : Plic} {s v : Nat}
    (h : Plic.set_priority p s v = some p') :
    p'.pending_bits = p.pending_bits ∧ p'.enables = p.enables ∧
    p'.context_local = p.context_local := by
  unfold Plic.set_priority at h
  split at h
  · cases h
  · split at h
    · obtain rfl := Option.some.inj h
      exact ⟨rfl, rfl, rfl⟩
    · cases h

lemma probe_priority_some_eq {p p' : Plic} {s r : Nat}
    (h : Plic.probe_priority_bits p s = some (p', r)) :
    p'.pending_bits = p.pending_bits ∧ p'.enables = p.enables ∧
    p'.context_local = p.context_local := by
  simp only [Plic.probe_priority_bits] at h
  split at h
  · cases h
  · split at h
    · have h2 := Option.some.inj h
      rw [Prod.mk.injEq] at h2
      obtain ⟨rfl, rfl⟩ := h2
      exact ⟨rfl, rfl, rfl⟩
    · cases h

lemma enable_some_eq {p p' : Plic} {s c : Nat}
    (h : Plic.enable p s c = some p') :
    p'.priorities = p.priorities ∧ p'.pending_bits = p.pending_bits ∧
    p'.context_local = p.context_local := by
  simp only [Plic.enable] at h
  split at h
  · cases h
  · split at h
    · obtain rfl := Option.some.inj h
      exact ⟨rfl, rfl, rfl⟩
    · cases h

lemma disable_some_eq {p p' : Plic} {s c : Nat}
    (h : Plic.disable p s c = some p') :
    p'.priorities = p.priorities ∧ p'.pending_bits = p.pending_bits ∧
    p'.context_local = p.context_local := by
  simp only [Plic.disable] at h
  split at h
  · cases h
  · split at h
    · obtain rfl := Option.some.inj h
      exact ⟨rfl, rfl, rfl⟩
    · cases h

lemma set_threshold_some_eq {p p' : Plic} {c v : Nat}
    (h : Plic.set_threshold p c v = some p') :
    p'.priorities = p.priorities ∧ p'.pending_bits = p.pending_bits ∧
    p'.enables = p.enables := by
  unfold Plic.set_threshold at h
  split at h
  · obtain rfl := Option.some.inj h
    exact ⟨rfl, rfl, rfl⟩
  · cases h

lemma probe_threshold_some_eq {p p' : Plic} {c r : Nat}
    (h : Plic.probe_threshold_bits p c = some (p', r)) :
    p'.priorities = p.priorities ∧ p'.pending_bits = p.pending_bits ∧
    p'.enables = p.enables := by
  simp only [Plic.probe_threshold_bits] at h
  split at h
  · have h2 := Option.some.inj h
    rw [Prod.mk.injEq] at h2
    obtain ⟨rfl, rfl⟩ := h2
    exact ⟨rfl, rfl, rfl⟩
  · cases h

lemma complete_some_eq {p p' : Plic} {c s : Nat}
    (h : Plic.complete p c s = some p') :
    p'.priorities = p.priorities ∧ p'.pending_bits = p.pending_bits ∧
    p'.enables = p.enables := by
  unfold Plic.complete at h
  split at h
  · split at h
    · cases h
    · obtain rfl := Option.some.inj h
      exact ⟨rfl, rfl, rfl⟩
  · cases h

lemma enable_idem (p : Plic) {s c : Nat} (hs0 : s ≠ 0) (hs : s < COUNT_SOURCE)
    (hc : c < COUNT_CONTEXT) {p' : Plic} (h : Plic.enable p s c = some p') :
    Plic.enable p' s c = some p' := by
  have hg := enable_group_lt hs hc
  simp only [Plic.enable, if_neg hs0, dif_pos hg] at h ⊢
  obtain rfl := Option.some.inj h
  dsimp only
  rw [Function.update_same, Function.update_idem, Nat.or_assoc, Nat.or_self]

lemma disable_idem (p : Plic) {s c : Nat} (hs0 : s ≠ 0) (hs : s < COUNT_SOURCE)
    (hc : c < COUNT_CONTEXT) {p' : Plic} (h : Plic.disable p s c = some p') :
    Plic.disable p' s c = some p' := by
  have hg := enable_group_lt hs hc
  simp only [Plic.disable, if_neg hs0, dif_pos hg] at h ⊢
  obtain rfl := Option.some.inj h
  dsimp only
  rw [Function.update_same, Function.update_idem, Nat.and_assoc, Nat.and_self]

/-- C2: for every source id in `[1, 1024)` and context in `[0, 15872)`,
`is_enabled`, `enable` and `disable` all address exactly the bit at position
`pos = context * 1024 + source_id` of the packed enable bitmap — word
`pos / 32`, bit `pos % 32`, which is what `Plic.enableBit` reads: `is_enabled`
returns that bit, `enable` sets it and changes no other bit of the bitmap,
`disable` clears it and changes no other bit. -/
theorem enable_ops_address_single_bit (p : Plic) (s c : Nat)
    (h1 : 1 ≤ s) (h2 : s < 1024) (hc : c < 15872) :
    Plic.is_enabled p s c = some (p.enableBit (c * 1024 + s)) ∧
    (∃ p', Plic.enable p s c = some p' ∧ p'.enableBit (c * 1024 + s) = true ∧
      ∀ q, q ≠ c * 1024 + s → p'.enableBit q = p.enableBit q) ∧
    (∃ p', Plic.disable p s c = some p' ∧ p'.enableBit (c * 1024 + s) = false ∧
      ∀ q, q ≠ c * 1024 + s → p'.enableBit q = p.enableBit q) := by
  have hs0 : s ≠ 0 := by omega
  refine ⟨is_enabled_eq_enableBit p hs0 h2 hc, ?_, ?_⟩
  · obtain ⟨p', he, hb, _, _, _⟩ := enable_frame p hs0 h2 hc
    simp only [COUNT_SOURCE] at hb
    refine ⟨p', he, ?_, ?_⟩
    · rw [hb, if_pos rfl]
    · intro q hq
      rw [hb, if_neg hq]
  · obtain ⟨p', he, hb, _, _, _⟩ := disable_frame p hs0 h2 hc
    simp only [COUNT_SOURCE] at hb
    refine ⟨p', he, ?_, ?_⟩
    · rw [hb, if_pos rfl]
    · intro q hq
      rw [hb, if_neg hq]

/-- Witness for C2 at `source = 3`, `context = 2` on the all-zero map. -/
theorem enable_ops_address_single_bit_witness :
    Plic.is_enabled Plic.init 3 2 = some (Plic.init.enableBit (2 * 1024 + 3)) ∧
    (∃ p', Plic.enable Plic.init 3 2 = some p' ∧ p'.enableBit (2 * 1024 + 3) = true ∧
      ∀ q, q ≠ 2 * 1024 + 3 → p'.enableBit q = Plic.init.enableBit q) ∧
    (∃ p', Plic.disable Plic.init 3 2 = some p' ∧ p'.enableBit (2 * 1024 + 3) = false ∧
      ∀ q, q ≠ 2 * 1024 + 3 → p'.enableBit q = Plic.init.enableBit q) :=
  enable_ops_address_single_bit Plic.init 3 2 (by norm_num) (by norm_num) (by norm_num)

/-- C10: for every source id in `[1, 1024)` and context in `[0, 15872)`, after
`enable(source, context)` the call `is_enabled(source, context)` returns
`true`, after `disable` it returns `false`, and each of `enable` and `disable`
is idempotent: a second identical call returns exactly the state produced by
the first. -/
theorem enable_disable_observe_idem (p : Plic) (s c : Nat)
    (h1 : 1 ≤ s) (h2 : s < 1024) (hc : c < 15872) :
    (∀ p', Plic.enable p s c = some p' →
      Plic.is_enabled p' s c = some true ∧ Plic.enable p' s c = some p') ∧
    (∀ p', Plic.disable p s c = some p' →
      Plic.is_enabled p' s c = some false ∧ Plic.disable p' s c = some p') := by
  have hs0 : s ≠ 0 := by omega
  constructor
  · intro p' h
    refine ⟨?_, enable_idem p hs0 h2 hc h⟩
    obtain ⟨p'', he, hb, _, _, _⟩ := enable_frame p hs0 h2 hc
    obtain rfl := Option.some.inj (he.symm.trans h)
    rw [is_enabled_eq_enableBit p'' hs0 h2 hc, hb, if_pos rfl]
  · intro p' h
    refine ⟨?_, disable_idem p hs0 h2 hc h⟩
    obtain ⟨p'', he, hb, _, _, _⟩ := disable_frame p hs0 h2 hc
    obtain rfl := Option.some.inj (he.symm.trans h)
    rw [is_enabled_eq_enableBit p'' hs0 h2 hc, hb, if_pos rfl]

/-- Witness for C10 at `source = 3`, `context = 2` on the all-zero map. -/
theorem enable_disable_observe_idem_witness :
    (∀ p', Plic.enable Plic.init 3 2 = some p' →
      Plic.is_enabled p' 3 2 = some true ∧ Plic.enable p' 3 2 = some p') ∧
    (∀ p', Plic.disable Plic.init 3 2 = some p' →
      Plic.is_enabled p' 3 2 = some false ∧ Plic.disable p' 3 2 = some p') :=
  enable_disable_observe_idem Plic.init 3 2 (by norm_num) (by norm_num) (by norm_num)

/-- C9: `enable(source_a, context_x)` and `disable(source_a, context_x)` do
not change `is_enabled(source_b, context_x)` for `source_b ≠ source_a`, nor
`is_enabled(source_a, context_y)` for `context_y ≠ context_x`, and they leave
the priority array, the pending bitmap, and the per-context threshold and
claim/completion registers unchanged, for all valid indices. -/
theorem enable_disable_frame (p : Plic) (sa sb cx cy : Nat)
    (ha1 : 1 ≤ sa) (ha2 : sa < 1024) (hb1 : 1 ≤ sb) (hb2 : sb < 1024)
    (hcx : cx < 15872) (hcy : cy < 15872) :
    (∀ p', Plic.enable p sa cx = some p' →
      (sb ≠ sa → Plic.is_enabled p' sb cx = Plic.is_enabled p sb cx) ∧
      (cy ≠ cx → Plic.is_enabled p' sa cy = Plic.is_enabled p sa cy) ∧
      p'.priorities = p.priorities ∧ p'.pending_bits = p.pending_bits ∧
      p'.context_local = p.context_local) ∧
    (∀ p', Plic.disable p sa cx = some p' →
      (sb ≠ sa → Plic.is_enabled p' sb cx = Plic.is_enabled p sb cx) ∧
      (cy ≠ cx → Plic.is_enabled p' sa cy = Plic.is_enabled p sa cy) ∧
      p'.priorities = p.priorities ∧ p'.pending_bits = p.pending_bits ∧
      p'.context_local = p.context_local) := by
  have ha0 : sa ≠ 0 := by omega
  have hb0 : sb ≠ 0 := by omega
  constructor
  · intro p' h
    obtain ⟨p'', he, hb, hpr, hpd, hcl⟩ := enable_frame p ha0 ha2 hcx
    obtain rfl := Option.some.inj (he.symm.trans h)
    simp only [COUNT_SOURCE] at hb
    refine ⟨?_, ?_, hpr, hpd, hcl⟩
    · intro hne
      rw [is_enabled_eq_enableBit p'' hb0 hb2 hcx, is_enabled_eq_enableBit p hb0 hb2 hcx]
      simp only [COUNT_SOURCE]
      rw [hb, if_neg (by omega)]
    · intro hne
      rw [is_enabled_eq_enableBit p'' ha0 ha2 hcy, is_enabled_eq_enableBit p ha0 ha2 hcy]
      simp only [COUNT_SOURCE]
      rw [hb, if_neg (by omega)]
  · intro p' h
    obtain ⟨p'', he, hb, hpr, hpd, hcl⟩ := disable_frame p ha0 ha2 hcx
    obtain rfl := Option.some.inj (he.symm.trans h)
    simp only [COUNT_SOURCE] at hb
    refine ⟨?_, ?_, hpr, hpd, hcl⟩
    · intro hne
      rw [is_enabled_eq_enableBit p'' hb0 hb2 hcx, is_enabled_eq_enableBit p hb0 hb2 hcx]
      simp only [COUNT_SOURCE]
      rw [hb, if_neg (by omega)]
    · intro hne
      rw [is_enabled_eq_enableBit p'' ha0 ha2 hcy, is_enabled_eq_enableBit p ha0 ha2 hcy]
      simp only [COUNT_SOURCE]
      rw [hb, if_neg (by omega)]

/-- Witness for C9 at `source_a = 3`, `source_b = 4`, `context_x = 1`,
`context_y = 2` on the all-zero map. -/
theorem enable_disable_frame_witness :
    (∀ p', Plic.enable Plic.init 3 1 = some p' →
      (4 ≠ 3 → Plic.is_enabled p' 4 1 = Plic.is_enabled Plic.init 4 1) ∧
      (2 ≠ 1 → Plic.is_enabled p' 3 2 = Plic.is_enabled Plic.init 3 2) ∧
      p'.priorities = Plic.init.priorities ∧ p'.pending_bits = Plic.init.pending_bits ∧
      p'.context_local = Plic.init.context_local) ∧
    (∀ p', Plic.disable Plic.init 3 1 = some p' →
      (4 ≠ 3 → Plic.is_enabled p' 4 1 = Plic.is_enabled Plic.init 4 1) ∧
      (2 ≠ 1 → Plic.is_enabled p' 3 2 = Plic.is_enabled Plic.init 3 2) ∧
      p'.priorities = Plic.init.priorities ∧ p'.pending_bits = Plic.init.pending_bits ∧
      p'.context_local = Plic.init.context_local) :=
  enable_disable_frame Plic.init 3 4 1 2 (by norm_num) (by norm_num) (by norm_num)
    (by norm_num) (by norm_num) (by norm_num)

/-- C5: for every source id in `[1, 1024)`, `probe_priority_bits` writes
all-ones to the priority slot and reads it back: its return value is a subset
of the all-ones mask, `get_priority` immediately after returns exactly that
value, and the slot is left holding the all-ones (maximum) value, not
restored. -/
theorem probe_priority_bits_leaves_max (p : Plic) (s : Nat)
    (h1 : 1 ≤ s) (h2 : s < 1024) :
    ∃ p' r, Plic.probe_priority_bits p s = some (p', r) ∧
      r &&& U32_MAX = r ∧
      Plic.get_priority p' s = some r ∧
      ∃ hs : s < COUNT_SOURCE, p'.priorities ⟨s, hs⟩ = U32_MAX := by
  have hs0 : s ≠ 0 := by omega
  have hs : s < COUNT_SOURCE := h2
  refine ⟨{ p with priorities := Function.update p.priorities ⟨s, hs⟩ U32_MAX },
    U32_MAX, ?_, Nat.and_self _, ?_, hs, ?_⟩
  · simp only [Plic.probe_priority_bits, if_neg hs0, dif_pos hs]
    simp [Function.update_same]
  · simp only [Plic.get_priority, if_neg hs0, dif_pos hs]
    simp [Function.update_same]
  · simp [Function.update_same]

/-- Witness for C5 at `source = 9` on the all-zero map. -/
theorem probe_priority_bits_leaves_max_witness :
    ∃ p' r, Plic.probe_priority_bits Plic.init 9 = some (p', r) ∧
      r &&& U32_MAX = r ∧
      Plic.get_priority p' 9 = some r ∧
      ∃ hs : 9 < COUNT_SOURCE, p'.priorities ⟨9, hs⟩ = U32_MAX :=
  probe_priority_bits_leaves_max Plic.init 9 (by norm_num) (by norm_num)

/-- C6: for every context in `[0, 15872)`, `claim(context)` reads that
context's claim/completion register and returns `none` exactly when the raw
value read is zero; otherwise it returns the nonzero value that was read. -/
theorem claim_none_iff_zero (p : Plic) (c : Nat) (hc : c < 15872) :
    ∃ hcf : c < COUNT_CONTEXT, ∃ r, Plic.claim p c = some r ∧
      (r = none ↔ (p.context_local ⟨c, hcf⟩).claim_or_completion = 0) ∧
      (∀ v, r = some v → v = (p.context_local ⟨c, hcf⟩).claim_or_completion ∧ v ≠ 0) ∧
      ((p.context_local ⟨c, hcf⟩).claim_or_completion ≠ 0 →
        r = some ((p.context_local ⟨c, hcf⟩).claim_or_completion)) := by
  have hcf : c < COUNT_CONTEXT := hc
  refine ⟨hcf, if (p.context_local ⟨c, hcf⟩).claim_or_completion = 0 then none
    else some ((p.context_local ⟨c, hcf⟩).claim_or_completion), ?_, ?_, ?_, ?_⟩
  · simp only [Plic.claim, dif_pos hcf]
  · by_cases h : (p.context_local ⟨c, hcf⟩).claim_or_completion = 0 <;> simp [h]
  · intro v hv
    by_cases h : (p.context_local ⟨c, hcf⟩).claim_or_completion = 0
    · rw [if_pos h] at hv
      cases hv
    · rw [if_neg h] at hv
      obtain rfl := Option.some.inj hv
      exact ⟨rfl, h⟩
  · intro h
    rw [if_neg h]

/-- Witness for C6 at `context = 11` on the all-zero map. -/
theorem claim_none_iff_zero_witness :
    ∃ hcf : 11 < COUNT_CONTEXT, ∃ r, Plic.claim Plic.init 11 = some r ∧
      (r = none ↔ (Plic.init.context_local ⟨11, hcf⟩).claim_or_completion = 0) ∧
      (∀ v, r = some v →
        v = (Plic.init.context_local ⟨11, hcf⟩).claim_or_completion ∧ v ≠ 0) ∧
      ((Plic.init.context_local ⟨11, hcf⟩).claim_or_completion ≠ 0 →
        r = some ((Plic.init.context_local ⟨11, hcf⟩).claim_or_completion)) :=
  claim_none_iff_zero Plic.init 11 (by norm_num)

/-- C7: for every source id in `[1, 1024)`, `is_pending` returns the bit at
position `source_id` of the packed pending bitmap, read from word
`source_id / 32` at bit `source_id % 32`; it is a pure read (the model
returns no new state), and no state-changing public operation — including
`complete` — ever writes to the pending region in software. -/
theorem is_pending_reads_bit_and_region_read_only (p : Plic) (s : Nat)
    (h1 : 1 ≤ s) (h2 : s < 1024) :
    (∃ hg : s / 32 < COUNT_SOURCE / U32_BITS,
      Plic.is_pending p s = some ((p.pending_bits ⟨s / 32, hg⟩).testBit (s % 32))) ∧
    (∀ (q q' : Plic) (t v : Nat), Plic.set_priority q t v = some q' →
      q'.pending_bits = q.pending_bits) ∧
    (∀ (q q' : Plic) (t r : Nat), Plic.probe_priority_bits q t = some (q', r) →
      q'.pending_bits = q.pending_bits) ∧
    (∀ (q q' : Plic) (t u : Nat), Plic.enable q t u = some q' →
      q'.pending_bits = q.pending_bits) ∧
    (∀ (q q' : Plic) (t u : Nat), Plic.disable q t u = some q' →
      q'.pending_bits = q.pending_bits) ∧
    (∀ (q q' : Plic) (t v : Nat), Plic.set_threshold q t v = some q' →
      q'.pending_bits = q.pending_bits) ∧
    (∀ (q q' : Plic) (t r : Nat), Plic.probe_threshold_bits q t = some (q', r) →
      q'.pending_bits = q.pending_bits) ∧
    (∀ (q q' : Plic) (t u : Nat), Plic.complete q t u = some q' →
      q'.pending_bits = q.pending_bits) := by
  have hs0 : s ≠ 0 := by omega
  have hg : s / 32 < COUNT_SOURCE / U32_BITS := by
    simp only [COUNT_SOURCE, U32_BITS]
    omega
  refine ⟨⟨hg, ?_⟩, ?_, ?_, ?_, ?_, ?_, ?_, ?_⟩
  · simp only [Plic.is_pending, U32_BITS, if_neg hs0]
    rw [dif_pos (by simpa [COUNT_SOURCE, U32_BITS] using hg), and_shift_bne]
  · exact fun q q' t v h => (set_priority_some_eq h).1
  · exact fun q q' t r h => (probe_priority_some_eq h).1
  · exact fun q q' t u h => (enable_some_eq h).2.1
  · exact fun q q' t u h => (disable_some_eq h).2.1
  · exact fun q q' t v h => (set_threshold_some_eq h).2.1
  · exact fun q q' t r h => (probe_threshold_some_eq h).2.1
  · exact fun q q' t u h => (complete_some_eq h).2.1

/-- Witness for C7 at `source = 3` on the all-zero map. -/
theorem is_pending_reads_bit_and_region_read_only_witness :
    (∃ hg : 3 / 32 < COUNT_SOURCE / U32_BITS,
      Plic.is_pending Plic.init 3 =
        some ((Plic.init.pending_bits ⟨3 / 32, hg⟩).testBit (3 % 32))) ∧
    (∀ (q q' : Plic) (t v : Nat), Plic.set_priority q t v = some q' →
      q'.pending_bits = q.pending_bits) ∧
    (∀ (q q' : Plic) (t r : Nat), Plic.probe_priority_bits q t = some (q', r) →
      q'.pending_bits = q.pending_bits) ∧
    (∀ (q q' : Plic) (t u : Nat), Plic.enable q t u = some q' →
      q'.pending_bits = q.pending_bits) ∧
    (∀ (q q' : Plic) (t u : Nat), Plic.disable q t u = some q' →
      q'.pending_bits = q.pending_bits) ∧
    (∀ (q q' : Plic) (t v : Nat), Plic.set_threshold q t v = some q' →
      q'.pending_bits = q.pending_bits) ∧
    (∀ (q q' : Plic) (t r : Nat), Plic.probe_threshold_bits q t = some (q', r) →
      q'.pending_bits = q.pending_bits) ∧
    (∀ (q q' : Plic) (t u : Nat), Plic.complete q t u = some q' →
      q'.pending_bits = q.pending_bits) :=
  is_pending_reads_bit_and_region_read_only Plic.init 3 (by norm_num) (by norm_num)

/-- C1 counterexample: with `source_id = 1024` the enable-bit operations do
not hit any fatal precondition path (the computed bit position
`context * 1024 + 1024` is still inside the bitmap for `context = 0`), and
`complete` accepts `source_id = 1024` outright — all four calls succeed
instead of panicking. -/
theorem boundary_claim_counterexample :
    (Plic.enable Plic.init 1024 0).isSome = true ∧
    (Plic.disable Plic.init 1024 0).isSome = true ∧
    (Plic.is_enabled Plic.init 1024 0).isSome = true ∧
    (Plic.complete Plic.init 0 1024).isSome = true := by
  refine ⟨rfl, rfl, rfl, rfl⟩

/-- C1 (amended): `source_id = 0` triggers the fatal path in every operation
that takes a source; `source_id = 1024` triggers it in `set_priority`,
`get_priority`, `probe_priority_bits` and `is_pending`; `context = 15872`
triggers it in `enable`, `disable`, `is_enabled`, `get_threshold`,
`set_threshold`, `probe_threshold_bits`, `claim` and `complete`.  However
`enable`, `disable` and `is_enabled` with `source_id = 1024` and
`context < 15871` do not panic: they silently address bit position
`(context + 1) * 1024`, the slot of the different pair
`(context + 1, source 0)`; and `complete` performs no range check on the
source at all, so `complete` with `source_id = 1024` succeeds and writes
`1024` to the register. -/
theorem boundary_behavior_amended (p : Plic) (v s c : Nat) :
    (Plic.set_priority p 0 v = none ∧ Plic.set_priority p 1024 v = none) ∧
    (Plic.get_priority p 0 = none ∧ Plic.get_priority p 1024 = none) ∧
    (Plic.probe_priority_bits p 0 = none ∧ Plic.probe_priority_bits p 1024 = none) ∧
    (Plic.is_pending p 0 = none ∧ Plic.is_pending p 1024 = none) ∧
    (Plic.enable p 0 c = none ∧ Plic.disable p 0 c = none ∧
      Plic.is_enabled p 0 c = none ∧ Plic.complete p c 0 = none) ∧
    (s ≠ 0 → Plic.enable p s 15872 = none ∧ Plic.disable p s 15872 = none ∧
      Plic.is_enabled p s 15872 = none) ∧
    (Plic.get_threshold p 15872 = none ∧ Plic.set_threshold p 15872 v = none ∧
      Plic.probe_threshold_bits p 15872 = none ∧ Plic.claim p 15872 = none ∧
      Plic.complete p 15872 s = none) ∧
    (c < 15871 →
      (Plic.enable p 1024 c).isSome = true ∧ (Plic.disable p 1024 c).isSome = true ∧
      Plic.is_enabled p 1024 c = some (p.enableBit ((c + 1) * 1024))) ∧
    (c < 15872 → s ≠ 0 → (Plic.complete p c s).isSome = true) := by
  refine ⟨⟨?_, ?_⟩, ⟨?_, ?_⟩, ⟨?_, ?_⟩, ⟨?_, ?_⟩, ⟨?_, ?_, ?_, ?_⟩, ?_, ⟨?_, ?_, ?_, ?_, ?_⟩,
    ?_, ?_⟩
  · simp [Plic.set_priority]
  · norm_num [Plic.set_priority, COUNT_SOURCE]
  · simp [Plic.get_priority]
  · norm_num [Plic.get_priority, COUNT_SOURCE]
  · simp [Plic.probe_priority_bits]
  · norm_num [Plic.probe_priority_bits, COUNT_SOURCE]
  · simp [Plic.is_pending]
  · norm_num [Plic.is_pending, COUNT_SOURCE, U32_BITS]
  · simp [Plic.enable]
  · simp [Plic.disable]
  · simp [Plic.is_enabled]
  · simp [Plic.complete]
  · intro hs0
    refine ⟨?_, ?_, ?_⟩
    · simp only [Plic.enable, if_neg hs0, COUNT_SOURCE, COUNT_CONTEXT, U32_BITS]
      rw [dif_neg (by omega)]
    · simp only [Plic.disable, if_neg hs0, COUNT_SOURCE, COUNT_CONTEXT, U32_BITS]
      rw [dif_neg (by omega)]
    · simp only [Plic.is_enabled, if_neg hs0, COUNT_SOURCE, COUNT_CONTEXT, U32_BITS]
      rw [dif_neg (by omega)]
  · norm_num [Plic.get_threshold, COUNT_CONTEXT]
  · norm_num [Plic.set_threshold, COUNT_CONTEXT]
  · norm_num [Plic.probe_threshold_bits, COUNT_CONTEXT]
  · norm_num [Plic.claim, COUNT_CONTEXT]
  · norm_num [Plic.complete, COUNT_CONTEXT]
  · intro hc
    have hg : (c * 1024 + 1024) / 32 < 1024 * 15872 / 32 := by omega
    have hpos : (c + 1) * 1024 = c * 1024 + 1024 := by ring
    refine ⟨?_, ?_, ?_⟩
    · simp only [Plic.enable, COUNT_SOURCE, COUNT_CONTEXT, U32_BITS]
      rw [if_neg (by norm_num), dif_pos hg]
      rfl
    · simp only [Plic.disable, COUNT_SOURCE, COUNT_CONTEXT, U32_BITS]
      rw [if_neg (by norm_num), dif_pos hg]
      rfl
    · simp only [Plic.is_enabled, Plic.enableBit, COUNT_SOURCE, COUNT_CONTEXT, U32_BITS, hpos]
      rw [if_neg (by norm_num), dif_pos hg, dif_pos hg, and_shift_bne]
  · intro hc hs0
    simp only [Plic.complete, COUNT_CONTEXT]
    rw [dif_pos (by omega), if_neg hs0]
    rfl

/-- Witness for the amended C1 at `v = 5`, `s = 3`, `c = 7` on the all-zero
map, exercising the hypothesis-guarded conjuncts. -/
theorem boundary_behavior_amended_witness :
    (Plic.enable Plic.init 3 15872 = none ∧ Plic.disable Plic.init 3 15872 = none ∧
      Plic.is_enabled Plic.init 3 15872 = none) ∧
    ((Plic.enable Plic.init 1024 7).isSome = true ∧
      (Plic.disable Plic.init 1024 7).isSome = true ∧
      Plic.is_enabled Plic.init 1024 7 = some (Plic.init.enableBit ((7 + 1) * 1024))) ∧
    (Plic.complete Plic.init 7 3).isSome = true := by
  obtain ⟨_, _, _, _, _, h6, _, h8, h9⟩ := boundary_behavior_amended Plic.init 5 3 7
  exact ⟨h6 (by norm_num), h8 (by norm_num), h9 (by norm_num) (by norm_num)⟩
